import Mathlib

/-!
A verification development for the C++ type-rendering engine of the
opencv-rust binding generator (`binding-generator/src/renderer.rs`).

The data model (`TypeRef`, `TypeRefKind`, `TemplateArg`) and the external
facets the renderer queries (constness qualifier spelling, name/style
policy, string-likeness, ABI pass classification) are embedded below; the
renderer itself (`CppRenderer.render`, `CppExternReturnRenderer.render`,
`render_cpp_tpl`) is a direct translation of the source.
-/

set_option maxHeartbeats 1000000

/-- Modelled from the spec: the inherent constness facet of a type node
(`inherent_constness`), a two-valued flag. `cpp_qual` is its C++ qualifier
spelling, `"const "` (with trailing space) when const, empty otherwise. -/
inductive Constness : Type where
  | Const : Constness
  | Mut : Constness
deriving DecidableEq, Repr

def Constness.cpp_qual : Constness → String
  | .Const => "const "
  | .Mut => ""

/-- The two naming conventions of the name/style policy:
fully-qualified (`Declaration`) vs. local/reference-friendly (`Reference`). -/
inductive CppNameStyle : Type where
  | Declaration : CppNameStyle
  | Reference : CppNameStyle
deriving DecidableEq, Repr

/-- Modelled from the spec: the name/style policy for one named entity
(class, enum, typedef, container, smart-pointer template, tuple template,
function-type spelling). It supplies one display name per naming style;
`cpp_name` selects the spelling for a style. -/
structure EntityName : Type where
  onDecl : String
  onRef : String
deriving DecidableEq, Repr

def EntityName.cpp_name (e : EntityName) : CppNameStyle → String
  | .Declaration => e.onDecl
  | .Reference => e.onRef

mutual

/-- A node of the Type Description Model. The facet fields model the
queryable classifications the renderer consumes from outside the core:
`isStdString` models `kind.is_std_string(type_hint)`, `isStringLike`
models `kind.as_string(type_hint).is_some()`, `passByVoidPtr` models
`kind.extern_pass_kind().is_by_void_ptr()`, and `isAbstractClassPtr`
models `kind.as_abstract_class_ptr().is_some()`. -/
inductive TypeRef : Type where
  | mk : TypeRefKind → Constness → Bool → Bool → Bool → Bool → TypeRef

/-- The closed tagged union of type kinds, as in `TypeRefKind`. Descriptor
objects that carry a style-dependent display name (vectors, tuples,
smart pointers, classes, enums, typedefs, functions) are embedded as an
`EntityName` plus their nested type payload. -/
inductive TypeRefKind : Type where
  | Primitive : String → String → TypeRefKind
  | Array : TypeRef → Option Nat → TypeRefKind
  | StdVector : EntityName → TypeRef → TypeRefKind
  | StdTuple : EntityName → TypeRefList → TypeRefKind
  | Pointer : TypeRef → TypeRefKind
  | Reference : TypeRef → TypeRefKind
  | RValueReference : TypeRef → TypeRefKind
  | SmartPtr : EntityName → TypeRef → TypeRefKind
  | Class : EntityName → TemplateArgList → TypeRefKind
  | Enum : EntityName → TypeRefKind
  | Typedef : EntityName → TypeRef → TypeRefKind
  | Generic : String → TypeRefKind
  | Function : EntityName → TypeRefKind
  | Ignored : TypeRefKind

/-- A list of type nodes (tuple elements). -/
inductive TypeRefList : Type where
  | nil : TypeRefList
  | cons : TypeRef → TypeRefList → TypeRefList

/-- A template argument: a nested type, a literal constant, or
unrepresentable. -/
inductive TemplateArg : Type where
  | Typename : TypeRef → TemplateArg
  | Constant : String → TemplateArg
  | Unknown : TemplateArg

/-- A list of template arguments. -/
inductive TemplateArgList : Type where
  | nil : TemplateArgList
  | cons : TemplateArg → TemplateArgList → TemplateArgList

end

def TypeRef.kind : TypeRef → TypeRefKind
  | .mk k _ _ _ _ _ => k

def TypeRef.inherent_constness : TypeRef → Constness
  | .mk _ c _ _ _ _ => c

def TypeRef.isStdString : TypeRef → Bool
  | .mk _ _ s _ _ _ => s

def TypeRef.isStringLike : TypeRef → Bool
  | .mk _ _ _ s _ _ => s

def TypeRef.passByVoidPtr : TypeRef → Bool
  | .mk _ _ _ _ p _ => p

def TypeRef.isAbstractClassPtr : TypeRef → Bool
  | .mk _ _ _ _ _ a => a

/-- Modelled from the spec: `TypeRefKind::as_reference`, which yields the
inner type for both reference kinds ("references cannot appear … in lvalue
position" covers lvalue and rvalue references) and nothing otherwise. -/
def TypeRefKind.as_reference : TypeRefKind → Option TypeRef
  | .Reference inner => some inner
  | .RValueReference inner => some inner
  | _ => none

/-- Modelled from the spec: `type_ref.template_specialization_args()` — the
template-argument list of a class specialization, empty for other kinds. -/
def TypeRef.template_specialization_args (t : TypeRef) : TemplateArgList :=
  match t.kind with
  | .Class _ args => args
  | _ => .nil

/-- Modelled from the spec: `TypeRef::new_pointer`, building a plain
pointer node around an inner type, with no constness and no special
classification facets. -/
def TypeRef.new_pointer (inner : TypeRef) : TypeRef :=
  .mk (.Pointer inner) .Mut false false false false

/-- Modelled from the spec: `TypeRefDesc::void()`, the opaque untyped
(void) type used when a string-like type is replaced at the ABI boundary. -/
def TypeRefDesc.void : TypeRef :=
  .mk (.Primitive "c_void" "void") .Mut false false false false

/-- The renderer configuration value: naming style, current declarator
name, and the extern/ABI-boundary flag. -/
structure CppRenderer : Type where
  name_style : CppNameStyle
  name : String
  extern_types : Bool
deriving DecidableEq, Repr

def CppRenderer.new (style : CppNameStyle) (name : String) (ext : Bool) : CppRenderer :=
  ⟨style, name, ext⟩

/-- `CppRenderer::recurse`: a fresh child configuration with the same
naming style and extern flag but an empty declarator name. -/
def CppRenderer.recurse (r : CppRenderer) : CppRenderer :=
  ⟨r.name_style, "", r.extern_types⟩

/-- Modelled from the spec: `.join(", ")` over rendered fragments
(the `IteratorExt` join helper): concatenation separated by the
separator. -/
def joinSep (sep : String) : List String → String
  | [] => ""
  | [s] => s
  | s :: rest => s ++ sep ++ joinSep sep rest

/-- Splits a character list at the first occurrence of a pattern:
`findSplit pat s = some (pre, post)` when `s = pre ++ pat ++ post` with
`pre` shortest possible, `none` when the pattern does not occur. -/
def findSplit (pat : List Char) : List Char → Option (List Char × List Char)
  | [] => if pat.isEmpty then some ([], []) else none
  | c :: rest =>
    if pat.isPrefixOf (c :: rest) then
      some ([], (c :: rest).drop pat.length)
    else
      match findSplit pat rest with
      | some (pre, post) => some (c :: pre, post)
      | none => none

/-- Modelled from the spec: `str::contains` for a literal pattern. -/
def containsSub (s pat : String) : Bool :=
  (findSplit pat.data s.data).isSome

/-- Modelled from the spec: `replacen_in_place(pat, 1, repl)` — replace
the first occurrence of `pat` by `repl`, leaving the string unchanged when
the pattern does not occur. -/
def replaceFirst (s pat repl : String) : String :=
  match findSplit pat.data s.data with
  | some (pre, post) => ⟨pre ++ repl.data ++ post⟩
  | none => s

def TemplateArgList.isEmpty : TemplateArgList → Bool
  | .nil => true
  | .cons _ _ => false

mutual

/-- `CppRenderer::render`, translated arm by arm from the source match.
The node is destructured into its kind, constness and `isStdString` facet
(the three attributes the general renderer reads from it). -/
def CppRenderer.render (r : CppRenderer) (t : TypeRef) : String :=
  match t with
  | .mk tkind tcnst tIsStdString _ _ _ =>
  let cnst := tcnst.cpp_qual
  let space_name := if r.name = "" then "" else " " ++ r.name
  let space_const_name := if r.name = "" then "" else " " ++ cnst ++ r.name
  match tkind with
  | .Primitive _ cpp => cnst ++ cpp ++ space_name
  | .Array inner size =>
    match size with
    | some sz =>
      if r.name = "" then
        cnst ++ r.recurse.render inner ++ "**"
      else
        cnst ++ r.recurse.render inner ++ "(*" ++ r.name ++ ")[" ++ toString sz ++ "]"
    | none => r.recurse.render inner ++ "*" ++ space_name
  | .StdVector vec elem =>
    cnst ++ vec.cpp_name r.name_style ++ "<" ++ r.recurse.render elem ++ ">" ++ space_name
  | .StdTuple tup elems =>
    cnst ++ tup.cpp_name r.name_style ++ "<" ++
      joinSep ", " (CppRenderer.renderTupleElems r elems) ++ ">" ++ space_name
  | .Reference inner =>
    if r.extern_types then
      r.recurse.render inner ++ "*" ++ space_const_name
    else
      r.recurse.render inner ++ "&" ++ space_const_name
  | .RValueReference inner =>
    if r.extern_types then
      r.recurse.render inner ++ "*" ++ space_const_name
    else
      r.recurse.render inner ++ "&&" ++ space_const_name
  | .Pointer inner => r.recurse.render inner ++ "*" ++ space_const_name
  | .SmartPtr ptr pointee =>
    cnst ++ ptr.cpp_name r.name_style ++ "<" ++ r.recurse.render pointee ++ ">" ++ space_name
  | .Class cls args =>
    let base := cls.cpp_name r.name_style
    let out :=
      if tIsStdString then base
      else
        base ++
          (if args.isEmpty then ""
           else "<" ++ joinSep ", " (CppRenderer.renderTplArgs r args) ++ ">")
    cnst ++ out ++ space_name
  | .Enum enm => cnst ++ enm.cpp_name r.name_style ++ space_name
  | .Typedef tdef underlying =>
    let typ :=
      if (underlying.kind.as_reference).isSome then
        r.recurse.render underlying
      else
        tdef.cpp_name r.name_style
    cnst ++ typ ++ space_name
  | .Generic generic_name => cnst ++ generic_name ++ space_name
  | .Function func =>
    let typ := func.cpp_name r.name_style
    if containsSub typ "(*)" then
      if r.name = "" then typ
      else replaceFirst typ "(*)" ("(*" ++ r.name ++ ")")
    else
      typ ++ space_name
  | .Ignored => "<ignored>" ++ space_name

/-- The per-element rendering of `StdTuple`: each element goes through a
fresh child renderer whose naming style is overridden to `Reference`. -/
def CppRenderer.renderTupleElems (r : CppRenderer) : TypeRefList → List String
  | .nil => []
  | .cons t ts =>
    CppRenderer.render ⟨CppNameStyle.Reference, "", r.extern_types⟩ t ::
      CppRenderer.renderTupleElems r ts

/-- The `filter_map` of `render_cpp_tpl`: `Typename` arguments are
rendered by a fresh child renderer, `Constant` literals pass through
verbatim, `Unknown` arguments are dropped. -/
def CppRenderer.renderTplArgs (r : CppRenderer) : TemplateArgList → List String
  | .nil => []
  | .cons (.Typename t) rest => r.recurse.render t :: CppRenderer.renderTplArgs r rest
  | .cons (.Constant lit) rest => lit :: CppRenderer.renderTplArgs r rest
  | .cons .Unknown rest => CppRenderer.renderTplArgs r rest

end

/-- `render_cpp_tpl`: the template-argument formatter. Empty argument list
yields the empty string; otherwise the surviving arguments are
comma-joined inside angle brackets. -/
def render_cpp_tpl (r : CppRenderer) (t : TypeRef) : String :=
  let generic_types := t.template_specialization_args
  if generic_types.isEmpty then ""
  else "<" ++ joinSep ", " (CppRenderer.renderTplArgs r generic_types) ++ ">"

/-- `CppExternReturnRenderer::recurse`: the general renderer with naming
style fixed to `Reference`, empty name and the extern flag forced on. -/
def CppExternReturnRenderer.recurse : CppRenderer :=
  CppRenderer.new CppNameStyle.Reference "" true

/-- `CppExternReturnRenderer::render`: rewrite string-like types to
pointer-to-void, wrap by-void-pointer non-abstract types in one extra
pointer, pass everything else through, then delegate to the general
renderer. -/
def CppExternReturnRenderer.render (t : TypeRef) : String :=
  let t2 :=
    if t.isStringLike then TypeRef.new_pointer TypeRefDesc.void
    else if t.passByVoidPtr && !t.isAbstractClassPtr then TypeRef.new_pointer t
    else t
  CppExternReturnRenderer.recurse.render t2

/-! ### Generic string and list helper lemmas -/

theorem String.eq_of_data_eq {a b : String} (h : a.data = b.data) : a = b := by
  cases a; cases b; simp_all

theorem findSplit_sound {pat l pre post : List Char}
    (h : findSplit pat l = some (pre, post)) : l = pre ++ pat ++ post := by
  induction l generalizing pre post with
  | nil =>
    by_cases hp : pat.isEmpty <;>
      simp only [findSplit, hp, if_pos, if_neg, Option.some.injEq, Prod.mk.injEq,
        reduceCtorEq, if_true, if_false] at h
    obtain ⟨h1, h2⟩ := h
    simp [List.isEmpty_iff.mp hp, h1.symm, h2.symm]
  | cons c rest ih =>
    rw [findSplit] at h
    by_cases hpre : pat.isPrefixOf (c :: rest)
    · rw [if_pos hpre] at h
      simp only [Option.some.injEq, Prod.mk.injEq] at h
      obtain ⟨h1, h2⟩ := h
      obtain ⟨t, ht⟩ := List.isPrefixOf_iff_prefix.mp hpre
      subst h1
      rw [List.nil_append, ← h2, ← ht, List.drop_left]
    · rw [if_neg hpre] at h
      cases hrec : findSplit pat rest with
      | none => rw [hrec] at h; exact absurd h (by simp)
      | some pq =>
        obtain ⟨p, q⟩ := pq
        rw [hrec] at h
        simp only [Option.some.injEq, Prod.mk.injEq] at h
        obtain ⟨h1, h2⟩ := h
        subst h2
        rw [← h1]
        simpa using ih hrec

theorem findSplit_complete {pat l pre post : List Char}
    (h : l = pre ++ pat ++ post) : (findSplit pat l).isSome := by
  induction l generalizing pre post with
  | nil =>
    have hpat : pat.isEmpty = true := by
      cases pre <;> cases pat <;> simp_all
    simp [findSplit, hpat]
  | cons c rest ih =>
    rw [findSplit]
    by_cases hpre : pat.isPrefixOf (c :: rest)
    · simp [hpre]
    · cases pre with
      | nil =>
        exact absurd (List.isPrefixOf_iff_prefix.mpr ⟨post, by simpa using h.symm⟩) hpre
      | cons c' pre' =>
        simp only [List.cons_append, List.cons.injEq] at h
        obtain ⟨hc, hrest⟩ := h
        cases hfs : findSplit pat rest with
        | none =>
          have := @ih pre' post (by simpa using hrest)
          rw [hfs] at this
          exact absurd this (by simp)
        | some pq => simp [hpre, hfs]

theorem findSplit_minimal {pat l pre post : List Char}
    (h : findSplit pat l = some (pre, post)) :
    ∀ pre' post', l = pre' ++ pat ++ post' → pre.length ≤ pre'.length := by
  induction l generalizing pre post with
  | nil =>
    intro pre' post' h'
    have hpre : pre = [] := by
      by_cases hp : pat.isEmpty <;>
        simp only [findSplit, hp, if_pos, if_neg, Option.some.injEq, Prod.mk.injEq,
          reduceCtorEq, if_true, if_false] at h
      exact h.1.symm
    simp [hpre]
  | cons c rest ih =>
    intro pre' post' h'
    rw [findSplit] at h
    by_cases hpre : pat.isPrefixOf (c :: rest)
    · rw [if_pos hpre] at h
      simp only [Option.some.injEq, Prod.mk.injEq] at h
      obtain ⟨h1, _⟩ := h
      subst h1
      simp
    · rw [if_neg hpre] at h
      cases pre' with
      | nil =>
        exact absurd (List.isPrefixOf_iff_prefix.mpr ⟨post', by simpa using h'.symm⟩) hpre
      | cons c' pre'' =>
        simp only [List.cons_append, List.cons.injEq] at h'
        obtain ⟨hc, hrest⟩ := h'
        cases hfs : findSplit pat rest with
        | none => rw [hfs] at h; exact absurd h (by simp)
        | some pq =>
          obtain ⟨p, q⟩ := pq
          rw [hfs] at h
          simp only [Option.some.injEq, Prod.mk.injEq] at h
          obtain ⟨h1, _⟩ := h
          have := ih hfs pre'' post' (by simpa using hrest)
          subst h1
          simp only [List.length_cons]
          omega

/-! ### Constness placement classification -/

/-- Replaces the inherent constness of a node, leaving everything else
unchanged. -/
def TypeRef.withConstness : TypeRef → Constness → TypeRef
  | .mk k _ s1 s2 s3 s4, c => .mk k c s1 s2 s3 s4

/-- Kinds whose rendering splices the const qualifier into the
name position (`space_const_name`): pointers and both reference kinds. -/
def TypeRefKind.constAtName : TypeRefKind → Bool
  | .Pointer _ => true
  | .Reference _ => true
  | .RValueReference _ => true
  | _ => false

/-- Kinds whose rendering drops the inherent const qualifier entirely:
unsized arrays, function types and the `<ignored>` placeholder. -/
def TypeRefKind.constOmitted : TypeRefKind → Bool
  | .Array _ none => true
  | .Function _ => true
  | .Ignored => true
  | _ => false

/-- Kinds that place the const qualifier immediately before the base-type
spelling. -/
def TypeRefKind.constAtBase (k : TypeRefKind) : Bool :=
  !(k.constAtName || k.constOmitted)

def intPrim : TypeRef := .mk (.Primitive "i32" "int") .Mut false false false false

def doublePrim : TypeRef := .mk (.Primitive "f64" "double") .Mut false false false false

/-- C1: counterexample. The claim places the const qualifier immediately
before the base-type spelling for every kind other than `Reference` and
`RValueReference`; but the `Pointer` arm uses the name-position splice
(`space_const_name`), so a const pointer-to-int named `v` renders as
`"int* const v"`: the qualifier sits before the name, after the pointer
decoration, and the string `"const int"` never appears. -/
theorem c1_const_placement_counterexample :
    CppRenderer.render ⟨.Declaration, "v", false⟩
        (.mk (.Pointer intPrim) .Const false false false false) = "int* const v" ∧
    containsSub
        (CppRenderer.render ⟨.Declaration, "v", false⟩
          (.mk (.Pointer intPrim) .Const false false false false)) "const int" = false := by
  decide

/-- C1 (amended): const placement by kind. Kinds other than `Pointer`,
`Reference`, `RValueReference`, unsized `Array`, `Function` and `Ignored`
place the const qualifier immediately before the base-type spelling (the
const rendering is exactly `"const "` prepended to the non-const
rendering); `Pointer` and the two reference kinds place it immediately
before the declarator name when the name is non-empty; unsized arrays,
function types, the ignored placeholder, and the name-position kinds with
an empty name omit the qualifier altogether. -/
theorem c1_const_placement (r : CppRenderer) (k : TypeRefKind) (b1 b2 b3 b4 : Bool) :
    (k.constAtBase = true →
      CppRenderer.render r (.mk k .Const b1 b2 b3 b4) =
        "const " ++ CppRenderer.render r (.mk k .Mut b1 b2 b3 b4)) ∧
    (k.constAtName = true → r.name ≠ "" →
      ∃ s, CppRenderer.render r (.mk k .Const b1 b2 b3 b4) = s ++ " const " ++ r.name ∧
        CppRenderer.render r (.mk k .Mut b1 b2 b3 b4) = s ++ " " ++ r.name) ∧
    ((k.constOmitted = true ∨ (k.constAtName = true ∧ r.name = "")) →
      CppRenderer.render r (.mk k .Const b1 b2 b3 b4) =
        CppRenderer.render r (.mk k .Mut b1 b2 b3 b4)) := by
  obtain ⟨style, name, ext⟩ := r
  refine ⟨?_, ?_, ?_⟩
  · intro hk
    apply String.eq_of_data_eq
    cases k with
    | Primitive a cpp =>
      by_cases hn : name = "" <;>
        simp [CppRenderer.render, Constness.cpp_qual, hn, String.data_append]
    | Array inner size =>
      cases size with
      | none => simp [TypeRefKind.constAtBase, TypeRefKind.constOmitted] at hk
      | some sz =>
        by_cases hn : name = "" <;>
          simp [CppRenderer.render, Constness.cpp_qual, hn, String.data_append]
    | StdVector en elem =>
      by_cases hn : name = "" <;>
        simp [CppRenderer.render, Constness.cpp_qual, hn, String.data_append]
    | StdTuple en elems =>
      by_cases hn : name = "" <;>
        simp [CppRenderer.render, Constness.cpp_qual, hn, String.data_append]
    | Pointer inner => simp [TypeRefKind.constAtBase, TypeRefKind.constAtName] at hk
    | Reference inner => simp [TypeRefKind.constAtBase, TypeRefKind.constAtName] at hk
    | RValueReference inner => simp [TypeRefKind.constAtBase, TypeRefKind.constAtName] at hk
    | SmartPtr en pointee =>
      by_cases hn : name = "" <;>
        simp [CppRenderer.render, Constness.cpp_qual, hn, String.data_append]
    | Class en args =>
      by_cases hn : name = "" <;>
        simp [CppRenderer.render, Constness.cpp_qual, hn, String.data_append]
    | Enum en =>
      by_cases hn : name = "" <;>
        simp [CppRenderer.render, Constness.cpp_qual, hn, String.data_append]
    | Typedef en u =>
      by_cases hn : name = "" <;>
        simp [CppRenderer.render, Constness.cpp_qual, hn, String.data_append]
    | Generic gn =>
      by_cases hn : name = "" <;>
        simp [CppRenderer.render, Constness.cpp_qual, hn, String.data_append]
    | Function fn => simp [TypeRefKind.constAtBase, TypeRefKind.constOmitted] at hk
    | Ignored => simp [TypeRefKind.constAtBase, TypeRefKind.constOmitted] at hk
  · intro hk hn
    have hn' : ¬ name = "" := hn
    cases k <;> simp [TypeRefKind.constAtName] at hk
    case Pointer inner =>
      refine ⟨CppRenderer.render ⟨style, "", ext⟩ inner ++ "*", ?_, ?_⟩ <;>
        apply String.eq_of_data_eq <;>
        simp [CppRenderer.render, CppRenderer.recurse, Constness.cpp_qual, hn',
          String.data_append]
    case Reference inner =>
      refine ⟨CppRenderer.render ⟨style, "", ext⟩ inner ++ (if ext then "*" else "&"), ?_, ?_⟩ <;>
        apply String.eq_of_data_eq <;>
        by_cases he : ext = true <;>
        simp [CppRenderer.render, CppRenderer.recurse, Constness.cpp_qual, hn', he,
          String.data_append]
    case RValueReference inner =>
      refine ⟨CppRenderer.render ⟨style, "", ext⟩ inner ++ (if ext then "*" else "&&"), ?_, ?_⟩ <;>
        apply String.eq_of_data_eq <;>
        by_cases he : ext = true <;>
        simp [CppRenderer.render, CppRenderer.recurse, Constness.cpp_qual, hn', he,
          String.data_append]
  · intro hk
    rcases hk with hk | ⟨hk, hn⟩
    · cases k <;> simp [TypeRefKind.constOmitted] at hk
      case Array inner size =>
        cases size with
        | none => simp [CppRenderer.render, Constness.cpp_qual]
        | some sz => simp at hk
      case Function fn =>
        simp [CppRenderer.render, Constness.cpp_qual]
      case Ignored =>
        simp [CppRenderer.render, Constness.cpp_qual]
    · have hn' : name = "" := hn
      subst hn'
      cases k <;> simp [TypeRefKind.constAtName] at hk <;>
        simp [CppRenderer.render, Constness.cpp_qual]

/-- C1 (amended) witness: a const `int` primitive named `x` renders as
`"const "` prepended to its non-const rendering. -/
theorem c1_const_placement_witness :
    CppRenderer.render ⟨.Declaration, "x", false⟩
        (.mk (.Primitive "i32" "int") .Const false false false false) =
      "const " ++ CppRenderer.render ⟨.Declaration, "x", false⟩
        (.mk (.Primitive "i32" "int") .Mut false false false false) :=
  (c1_const_placement ⟨.Declaration, "x", false⟩ (.Primitive "i32" "int") false false false false).1
    (by decide)

/-- C3: sized-array rendering. With an empty declarator name a sized array
renders as the (const-prefixed) element rendering followed by `**`; with a
non-empty name it renders the pointer-to-fixed-size-array declarator
`(*name)[size]`; the end-to-end example `int(*data)[4]` is included. -/
theorem c3_sized_array (r : CppRenderer) (inner : TypeRef) (sz : Nat)
    (c : Constness) (b1 b2 b3 b4 : Bool) :
    (r.name = "" →
      CppRenderer.render r (.mk (.Array inner (some sz)) c b1 b2 b3 b4) =
        c.cpp_qual ++ CppRenderer.render r.recurse inner ++ "**") ∧
    (r.name ≠ "" →
      CppRenderer.render r (.mk (.Array inner (some sz)) c b1 b2 b3 b4) =
        c.cpp_qual ++ CppRenderer.render r.recurse inner ++
          "(*" ++ r.name ++ ")[" ++ toString sz ++ "]") ∧
    CppRenderer.render ⟨.Declaration, "data", false⟩
        (.mk (.Array intPrim (some 4)) .Mut false false false false) = "int(*data)[4]" := by
  refine ⟨?_, ?_, by decide⟩
  · intro hn
    apply String.eq_of_data_eq
    simp [CppRenderer.render, CppRenderer.recurse, hn, String.data_append]
  · intro hn
    apply String.eq_of_data_eq
    simp [CppRenderer.render, CppRenderer.recurse, hn, String.data_append]

/-- C3 witness: the two quantified conjuncts applied at concrete inputs —
an unnamed sized array of `int` renders as `int**`, and the named
end-to-end example `int(*data)[4]`. -/
theorem c3_sized_array_witness :
    CppRenderer.render ⟨.Declaration, "", false⟩
        (.mk (.Array intPrim (some 4)) .Mut false false false false) = "int**" ∧
    CppRenderer.render ⟨.Declaration, "data", false⟩
        (.mk (.Array intPrim (some 4)) .Mut false false false false) = "int(*data)[4]" := by
  constructor
  · have h := (c3_sized_array ⟨.Declaration, "", false⟩ intPrim 4 .Mut false false false false).1
      (by decide)
    rw [h]; decide
  · have h := (c3_sized_array ⟨.Declaration, "data", false⟩ intPrim 4 .Mut
      false false false false).2.1 (by decide)
    rw [h]; decide

/-- C4: the extern-return renderer rewrites the type (string-like becomes
pointer-to-void; by-void-pointer non-abstract types are wrapped in one
extra pointer; everything else passes through) and then delegates to the
general renderer with `Reference` naming style and the extern flag on;
in particular any string-like type renders as `void*`. -/
theorem c4_extern_return (t : TypeRef) :
    CppExternReturnRenderer.render t =
      CppRenderer.render (CppRenderer.new CppNameStyle.Reference "" true)
        (if t.isStringLike then TypeRef.new_pointer TypeRefDesc.void
         else if t.passByVoidPtr && !t.isAbstractClassPtr then TypeRef.new_pointer t
         else t) ∧
    (t.isStringLike = true → CppExternReturnRenderer.render t = "void*") := by
  constructor
  · rfl
  · intro h
    simp only [CppExternReturnRenderer.render, CppExternReturnRenderer.recurse, h, if_pos]
    decide

/-- C4 witness: a concrete string-like class node renders as `void*`
through the extern-return renderer. -/
theorem c4_extern_return_witness :
    CppExternReturnRenderer.render
        (.mk (.Class ⟨"std::string", "string"⟩ .nil) .Mut true true false false) = "void*" :=
  (c4_extern_return (.mk (.Class ⟨"std::string", "string"⟩ .nil) .Mut true true false false)).2
    (by decide)

/-- C5: the template-argument formatter renders `Typename` arguments with
a fresh child renderer (empty declarator name, same style and extern
flag), emits `Constant` literals verbatim, and drops `Unknown` arguments
without a placeholder: two `Typename`s plus one `Unknown` give exactly two
comma-separated entries, and a `Constant` in second position appears as
its literal text. -/
theorem c5_tpl_args (r : CppRenderer) (t1 t2 : TypeRef) (lit : String)
    (en : EntityName) (c : Constness) (b1 b2 b3 b4 : Bool) :
    render_cpp_tpl r
        (.mk (.Class en (.cons (.Typename t1) (.cons (.Typename t2) (.cons .Unknown .nil))))
          c b1 b2 b3 b4) =
      "<" ++ CppRenderer.render ⟨r.name_style, "", r.extern_types⟩ t1 ++ ", " ++
        CppRenderer.render ⟨r.name_style, "", r.extern_types⟩ t2 ++ ">" ∧
    render_cpp_tpl r
        (.mk (.Class en (.cons (.Typename t1) (.cons (.Constant lit) (.cons .Unknown .nil))))
          c b1 b2 b3 b4) =
      "<" ++ CppRenderer.render ⟨r.name_style, "", r.extern_types⟩ t1 ++ ", " ++ lit ++ ">" := by
  constructor <;>
    apply String.eq_of_data_eq <;>
    simp [render_cpp_tpl, TypeRef.template_specialization_args, TypeRef.kind,
      TemplateArgList.isEmpty, CppRenderer.renderTplArgs, CppRenderer.recurse, joinSep,
      String.data_append]

/-- C6: the recursion contract. `recurse` produces a child configuration
with the same naming style and extern flag and an empty declarator name;
consequently the element of a vector-like container is rendered under the
empty-name child configuration, independent of the outer declarator
name. -/
theorem c6_recursion_contract (r : CppRenderer) :
    r.recurse = ⟨r.name_style, "", r.extern_types⟩ ∧
    (∀ (en : EntityName) (elem : TypeRef) (c : Constness) (b1 b2 b3 b4 : Bool),
      CppRenderer.render r (.mk (.StdVector en elem) c b1 b2 b3 b4) =
        c.cpp_qual ++ en.cpp_name r.name_style ++ "<" ++
          CppRenderer.render ⟨r.name_style, "", r.extern_types⟩ elem ++ ">" ++
          (if r.name = "" then "" else " " ++ r.name)) := by
  refine ⟨rfl, fun en elem c b1 b2 b3 b4 => ?_⟩
  apply String.eq_of_data_eq
  simp [CppRenderer.render, CppRenderer.recurse, String.data_append]

/-- C7: typedef rendering. When the underlying type is a reference kind
the alias is bypassed and the underlying type is rendered through the
fresh child renderer; otherwise the typedef's own spelling is used; in
both cases the const qualifier and the declarator name wrap that
spelling. -/
theorem c7_typedef (r : CppRenderer) (en : EntityName) (u : TypeRef)
    (c : Constness) (b1 b2 b3 b4 : Bool) :
    CppRenderer.render r (.mk (.Typedef en u) c b1 b2 b3 b4) =
      c.cpp_qual ++
        (if (u.kind.as_reference).isSome then CppRenderer.render ⟨r.name_style, "", r.extern_types⟩ u
         else en.cpp_name r.name_style) ++
        (if r.name = "" then "" else " " ++ r.name) := by
  apply String.eq_of_data_eq
  by_cases h : (u.kind.as_reference).isSome <;>
    simp [CppRenderer.render, CppRenderer.recurse, h, String.data_append]

/-- Maps a rendering function over a list of type nodes. -/
def TypeRefList.mapRender (f : TypeRef → String) : TypeRefList → List String
  | .nil => []
  | .cons t ts => f t :: ts.mapRender f

theorem renderTupleElems_eq_mapRender (r : CppRenderer) (l : TypeRefList) :
    CppRenderer.renderTupleElems r l =
      l.mapRender (CppRenderer.render ⟨CppNameStyle.Reference, "", r.extern_types⟩) := by
  match l with
  | .nil => rfl
  | .cons t ts =>
    simp [CppRenderer.renderTupleElems, TypeRefList.mapRender,
      renderTupleElems_eq_mapRender r ts]

/-- C8: tuple rendering. Each element is rendered under the
local/reference naming style (with an empty name and the caller's extern
flag) regardless of the enclosing style, while the tuple template name
itself is spelled using the enclosing naming style. -/
theorem c8_tuple (r : CppRenderer) (en : EntityName) (elems : TypeRefList)
    (c : Constness) (b1 b2 b3 b4 : Bool) :
    CppRenderer.render r (.mk (.StdTuple en elems) c b1 b2 b3 b4) =
      c.cpp_qual ++ en.cpp_name r.name_style ++ "<" ++
        joinSep ", "
          (elems.mapRender (CppRenderer.render ⟨CppNameStyle.Reference, "", r.extern_types⟩)) ++
        ">" ++ (if r.name = "" then "" else " " ++ r.name) := by
  apply String.eq_of_data_eq
  simp [CppRenderer.render, renderTupleElems_eq_mapRender, String.data_append]

/-- All arguments of the list are `Unknown`. -/
def TemplateArgList.allUnknown : TemplateArgList → Bool
  | .nil => true
  | .cons .Unknown rest => rest.allUnknown
  | .cons _ _ => false

theorem renderTplArgs_allUnknown (r : CppRenderer) (args : TemplateArgList)
    (h : args.allUnknown = true) : CppRenderer.renderTplArgs r args = [] := by
  match args with
  | .nil => rfl
  | .cons (.Typename t) rest => simp [TemplateArgList.allUnknown] at h
  | .cons (.Constant lit) rest => simp [TemplateArgList.allUnknown] at h
  | .cons .Unknown rest =>
    rw [TemplateArgList.allUnknown] at h
    simp [CppRenderer.renderTplArgs, renderTplArgs_allUnknown r rest h]

/-- C9: the template-argument formatter returns the empty string exactly
when the argument list itself is empty; a non-empty list consisting only
of `Unknown` arguments yields the empty angle brackets `"<>"`. -/
theorem c9_all_unknown (r : CppRenderer) (t : TypeRef) :
    (render_cpp_tpl r t = "" ↔ t.template_specialization_args.isEmpty = true) ∧
    (t.template_specialization_args.isEmpty = false →
      t.template_specialization_args.allUnknown = true →
      render_cpp_tpl r t = "<>") := by
  constructor
  · constructor
    · intro h
      by_contra hne
      rw [render_cpp_tpl] at h
      simp only [Bool.not_eq_true] at hne
      rw [if_neg (by simp [hne])] at h
      have := congrArg String.data h
      simp [String.data_append] at this
    · intro h
      rw [render_cpp_tpl, if_pos h]
  · intro hne hall
    rw [render_cpp_tpl, if_neg (by simp [hne]),
      renderTplArgs_allUnknown r t.template_specialization_args hall]
    decide

/-- C9 witness: a class node whose argument list holds a single `Unknown`
argument formats as `"<>"`, and one with an empty list formats as `""`. -/
theorem c9_all_unknown_witness :
    render_cpp_tpl ⟨.Declaration, "", false⟩
        (.mk (.Class ⟨"cv::Mat", "Mat"⟩ (.cons .Unknown .nil)) .Mut false false false false) =
      "<>" ∧
    render_cpp_tpl ⟨.Declaration, "", false⟩
        (.mk (.Class ⟨"cv::Mat", "Mat"⟩ .nil) .Mut false false false false) = "" := by
  constructor
  · exact (c9_all_unknown ⟨.Declaration, "", false⟩
      (.mk (.Class ⟨"cv::Mat", "Mat"⟩ (.cons .Unknown .nil)) .Mut false false false false)).2
      (by decide) (by decide)
  · exact (c9_all_unknown ⟨.Declaration, "", false⟩
      (.mk (.Class ⟨"cv::Mat", "Mat"⟩ .nil) .Mut false false false false)).1.mpr (by decide)

/-- C10: function-type rendering when the spelling carries the
function-pointer marker `(*)`. With an empty declarator name the spelling
is returned unchanged (nothing appended); with a non-empty name exactly
the first occurrence of `(*)` (the split with shortest prefix) is replaced
by `(*name)`, the rest of the spelling being preserved verbatim. -/
theorem c10_function_marker (style : CppNameStyle) (name : String) (ext : Bool)
    (fn : EntityName) (c : Constness) (b1 b2 b3 b4 : Bool)
    (hc : containsSub (fn.cpp_name style) "(*)" = true) :
    CppRenderer.render ⟨style, "", ext⟩ (.mk (.Function fn) c b1 b2 b3 b4) =
      fn.cpp_name style ∧
    (name ≠ "" →
      ∃ pre post,
        (fn.cpp_name style).data = pre ++ "(*)".data ++ post ∧
        (∀ pre' post', (fn.cpp_name style).data = pre' ++ "(*)".data ++ post' →
          pre.length ≤ pre'.length) ∧
        (CppRenderer.render ⟨style, name, ext⟩ (.mk (.Function fn) c b1 b2 b3 b4)).data =
          pre ++ ("(*" ++ name ++ ")").data ++ post) := by
  constructor
  · simp [CppRenderer.render, hc]
  · intro hn
    have hsome : (findSplit "(*)".data (fn.cpp_name style).data).isSome := hc
    obtain ⟨pq, hfind⟩ := Option.isSome_iff_exists.mp hsome
    obtain ⟨pre, post⟩ := pq
    refine ⟨pre, post, findSplit_sound hfind, findSplit_minimal hfind, ?_⟩
    simp only [CppRenderer.render, hc, if_true, if_pos, hn, if_neg, if_false]
    rw [replaceFirst, hfind]

/-! ### Amp-freedom: the extern renderer emits no reference symbol -/

/-- The string carries no `&` character. -/
def strNoAmp (s : String) : Bool :=
  s.data.all (fun c => c != '&')

/-- Both spellings of a named entity are free of `&`. -/
def EntityName.ampFree (e : EntityName) : Bool :=
  strNoAmp e.onDecl && strNoAmp e.onRef

mutual

/-- Every atomic spelling embedded in the type tree (primitive spellings,
entity names, generic placeholders, constant template literals) is free of
the `&` character. -/
def TypeRef.ampFree : TypeRef → Bool
  | .mk k _ _ _ _ _ => k.ampFree

def TypeRefKind.ampFree : TypeRefKind → Bool
  | .Primitive _ cpp => strNoAmp cpp
  | .Array inner _ => inner.ampFree
  | .StdVector en elem => en.ampFree && elem.ampFree
  | .StdTuple en elems => en.ampFree && elems.ampFree
  | .Pointer inner => inner.ampFree
  | .Reference inner => inner.ampFree
  | .RValueReference inner => inner.ampFree
  | .SmartPtr en pointee => en.ampFree && pointee.ampFree
  | .Class en args => en.ampFree && args.ampFree
  | .Enum en => en.ampFree
  | .Typedef en u => en.ampFree && u.ampFree
  | .Generic n => strNoAmp n
  | .Function en => en.ampFree
  | .Ignored => true

def TypeRefList.ampFree : TypeRefList → Bool
  | .nil => true
  | .cons t ts => t.ampFree && ts.ampFree

def TemplateArg.ampFree : TemplateArg → Bool
  | .Typename t => t.ampFree
  | .Constant lit => strNoAmp lit
  | .Unknown => true

def TemplateArgList.ampFree : TemplateArgList → Bool
  | .nil => true
  | .cons a rest => a.ampFree && rest.ampFree

end

theorem strNoAmp_append (a b : String) :
    strNoAmp (a ++ b) = (strNoAmp a && strNoAmp b) := by
  simp [strNoAmp, String.data_append, List.all_append]

theorem strNoAmp_joinSep {l : List String} (h : ∀ s ∈ l, strNoAmp s = true) :
    strNoAmp (joinSep ", " l) = true := by
  induction l with
  | nil => decide
  | cons s rest ih =>
    cases rest with
    | nil => exact h s (by simp)
    | cons s2 r2 =>
      have h1 := h s (by simp)
      have h2 : ∀ x ∈ s2 :: r2, strNoAmp x = true := fun x hx => h x (by simp [hx])
      have h3 := ih h2
      simp [joinSep, strNoAmp_append, h1] at h3 ⊢
      exact ⟨by decide, h3⟩

theorem EntityName.cpp_name_noAmp {e : EntityName} (h : e.ampFree = true)
    (style : CppNameStyle) : strNoAmp (e.cpp_name style) = true := by
  simp [EntityName.ampFree, Bool.and_eq_true] at h
  cases style <;> simp [EntityName.cpp_name, h.1, h.2]

theorem strNoAmp_replaceFirst {s repl : String} (pat : String)
    (hs : strNoAmp s = true) (hr : strNoAmp repl = true) :
    strNoAmp (replaceFirst s pat repl) = true := by
  rw [replaceFirst]
  cases hfind : findSplit pat.data s.data with
  | none => exact hs
  | some pq =>
    obtain ⟨pre, post⟩ := pq
    have hsound := findSplit_sound hfind
    simp only [strNoAmp] at hs ⊢
    rw [hsound] at hs
    simp only [List.all_append, Bool.and_eq_true] at hs
    have hr' : repl.data.all (fun c => c != '&') = true := hr
    simp only [List.all_append, Bool.and_eq_true]
    exact ⟨⟨hs.1.1, hr'⟩, hs.2⟩

theorem digitChar_noAmp (m : Nat) (h : m < 10) : (Nat.digitChar m != '&') = true := by
  interval_cases m <;> decide

theorem toDigitsCore_noAmp (fuel n : Nat) (acc : List Char)
    (hacc : acc.all (fun c => c != '&') = true) :
    (Nat.toDigitsCore 10 fuel n acc).all (fun c => c != '&') = true := by
  induction fuel generalizing n acc with
  | zero => simpa [Nat.toDigitsCore] using hacc
  | succ f ih =>
    rw [Nat.toDigitsCore]
    have hd := digitChar_noAmp (n % 10) (Nat.mod_lt n (by omega))
    by_cases h : n / 10 = 0
    · simp [h, hd, hacc]
    · simp only [h, if_neg, if_false]
      exact ih (n / 10) (Nat.digitChar (n % 10) :: acc) (by simp [hd, hacc])

theorem natToString_noAmp (n : Nat) : strNoAmp (toString n) = true := by
  have h := toDigitsCore_noAmp (n + 1) n [] (by decide)
  simpa [strNoAmp, toString, Nat.repr, Nat.toDigits] using h

mutual

/-- In extern mode (`extern_types = true`) the renderer never emits the
`&` character, provided neither the declarator name nor any spelling in
the type tree contains one. -/
theorem render_noAmp (r : CppRenderer) (t : TypeRef)
    (hx : r.extern_types = true) (hn : strNoAmp r.name = true) (ht : t.ampFree = true) :
    strNoAmp (r.render t) = true := by
  obtain ⟨style, name, ext⟩ := r
  have hx' : ext = true := hx
  subst hx'
  have hn' : strNoAmp name = true := hn
  obtain ⟨k, c, s1, s2, s3, s4⟩ := t
  have ht' : k.ampFree = true := ht
  have hcnst : strNoAmp c.cpp_qual = true := by cases c <;> decide
  have hempty : strNoAmp "" = true := by decide
  have hspace : strNoAmp " " = true := by decide
  have hstar : strNoAmp "*" = true := by decide
  have hlt : strNoAmp "<" = true := by decide
  have hgt : strNoAmp ">" = true := by decide
  have hsp : strNoAmp (if name = "" then "" else " " ++ name) = true := by
    by_cases h : name = ""
    · rw [if_pos h]; exact hempty
    · rw [if_neg h]; simp [strNoAmp_append, hspace, hn']
  have hscn : strNoAmp (if name = "" then "" else " " ++ c.cpp_qual ++ name) = true := by
    by_cases h : name = ""
    · rw [if_pos h]; exact hempty
    · rw [if_neg h]; simp [strNoAmp_append, hspace, hcnst, hn']
  cases k with
  | Primitive a cpp =>
    have hc : strNoAmp cpp = true := ht'
    simp [CppRenderer.render, strNoAmp_append, hcnst, hc, hsp]
  | Array inner size =>
    have ihi := render_noAmp ⟨style, "", true⟩ inner rfl hempty ht'
    cases size with
    | none =>
      simp [CppRenderer.render, CppRenderer.recurse, strNoAmp_append, ihi, hstar, hsp]
    | some sz =>
      have hdig := natToString_noAmp sz
      have hss : strNoAmp "**" = true := by decide
      have hop : strNoAmp "(*" = true := by decide
      have hcb : strNoAmp ")[" = true := by decide
      have hrb : strNoAmp "]" = true := by decide
      by_cases h : name = "" <;>
        simp [CppRenderer.render, CppRenderer.recurse, strNoAmp_append, h, ihi, hcnst,
          hdig, hn', hss, hop, hcb, hrb]
  | StdVector en elem =>
    simp only [TypeRefKind.ampFree, Bool.and_eq_true] at ht'
    have ihe := render_noAmp ⟨style, "", true⟩ elem rfl hempty ht'.2
    have hen := EntityName.cpp_name_noAmp ht'.1 style
    simp [CppRenderer.render, CppRenderer.recurse, strNoAmp_append, hcnst, hen, ihe,
      hlt, hgt, hsp]
  | StdTuple en elems =>
    simp only [TypeRefKind.ampFree, Bool.and_eq_true] at ht'
    have hen := EntityName.cpp_name_noAmp ht'.1 style
    have hjoin := strNoAmp_joinSep (renderTupleElems_noAmp ⟨style, name, true⟩ elems rfl ht'.2)
    simp [CppRenderer.render, strNoAmp_append, hcnst, hen, hjoin, hlt, hgt, hsp]
  | Pointer inner =>
    have ihi := render_noAmp ⟨style, "", true⟩ inner rfl hempty ht'
    simp [CppRenderer.render, CppRenderer.recurse, strNoAmp_append, ihi, hstar, hscn]
  | Reference inner =>
    have ihi := render_noAmp ⟨style, "", true⟩ inner rfl hempty ht'
    simp [CppRenderer.render, CppRenderer.recurse, strNoAmp_append, ihi, hstar, hscn]
  | RValueReference inner =>
    have ihi := render_noAmp ⟨style, "", true⟩ inner rfl hempty ht'
    simp [CppRenderer.render, CppRenderer.recurse, strNoAmp_append, ihi, hstar, hscn]
  | SmartPtr en pointee =>
    simp only [TypeRefKind.ampFree, Bool.and_eq_true] at ht'
    have ihp := render_noAmp ⟨style, "", true⟩ pointee rfl hempty ht'.2
    have hen := EntityName.cpp_name_noAmp ht'.1 style
    simp [CppRenderer.render, CppRenderer.recurse, strNoAmp_append, hcnst, hen, ihp,
      hlt, hgt, hsp]
  | Class en args =>
    simp only [TypeRefKind.ampFree, Bool.and_eq_true] at ht'
    have hen := EntityName.cpp_name_noAmp ht'.1 style
    have hjoin := strNoAmp_joinSep (renderTplArgs_noAmp ⟨style, name, true⟩ args rfl ht'.2)
    by_cases hstd : s1 = true <;> by_cases hargs : args.isEmpty = true <;>
      simp [CppRenderer.render, strNoAmp_append, hstd, hargs, hcnst, hen, hjoin,
        hlt, hgt, hsp, hempty]
  | Enum en =>
    have hen := EntityName.cpp_name_noAmp ht' style
    simp [CppRenderer.render, strNoAmp_append, hcnst, hen, hsp]
  | Typedef en u =>
    simp only [TypeRefKind.ampFree, Bool.and_eq_true] at ht'
    by_cases href : (u.kind.as_reference).isSome
    · have ihu := render_noAmp ⟨style, "", true⟩ u rfl hempty ht'.2
      simp [CppRenderer.render, CppRenderer.recurse, href, strNoAmp_append, hcnst, ihu, hsp]
    · have hen := EntityName.cpp_name_noAmp ht'.1 style
      simp [CppRenderer.render, href, strNoAmp_append, hcnst, hen, hsp]
  | Generic gn =>
    have hg : strNoAmp gn = true := ht'
    simp [CppRenderer.render, strNoAmp_append, hcnst, hg, hsp]
  | Function fn =>
    have hty := EntityName.cpp_name_noAmp ht' style
    by_cases hcont : containsSub (fn.cpp_name style) "(*)" = true
    · by_cases h : name = ""
      · simp [CppRenderer.render, hcont, h, hty]
      · have hop : strNoAmp "(*" = true := by decide
        have hcl : strNoAmp ")" = true := by decide
        have hrepl : strNoAmp ("(*" ++ name ++ ")") = true := by
          simp [strNoAmp_append, hop, hcl, hn']
        have hres := strNoAmp_replaceFirst "(*)" hty hrepl
        simp [CppRenderer.render, hcont, h, hres]
    · simp [CppRenderer.render, hcont, strNoAmp_append, hty, hsp]
  | Ignored =>
    have hign : strNoAmp "<ignored>" = true := by decide
    simp [CppRenderer.render, strNoAmp_append, hign, hsp]

theorem renderTupleElems_noAmp (r : CppRenderer) (l : TypeRefList)
    (hx : r.extern_types = true) (hl : l.ampFree = true) :
    ∀ s ∈ CppRenderer.renderTupleElems r l, strNoAmp s = true := by
  match l with
  | .nil => intro s hs; simp [CppRenderer.renderTupleElems] at hs
  | .cons t ts =>
    simp only [TypeRefList.ampFree, Bool.and_eq_true] at hl
    intro s hs
    simp only [CppRenderer.renderTupleElems, List.mem_cons] at hs
    rcases hs with hs | hs
    · subst hs
      exact render_noAmp ⟨CppNameStyle.Reference, "", r.extern_types⟩ t hx
        (by show strNoAmp "" = true; decide) hl.1
    · exact renderTupleElems_noAmp r ts hx hl.2 s hs

theorem renderTplArgs_noAmp (r : CppRenderer) (args : TemplateArgList)
    (hx : r.extern_types = true) (ha : args.ampFree = true) :
    ∀ s ∈ CppRenderer.renderTplArgs r args, strNoAmp s = true := by
  match args with
  | .nil => intro s hs; simp [CppRenderer.renderTplArgs] at hs
  | .cons (.Typename t) rest =>
    simp only [TemplateArgList.ampFree, TemplateArg.ampFree, Bool.and_eq_true] at ha
    intro s hs
    simp only [CppRenderer.renderTplArgs, List.mem_cons] at hs
    rcases hs with hs | hs
    · subst hs
      exact render_noAmp r.recurse t hx (by show strNoAmp "" = true; decide) ha.1
    · exact renderTplArgs_noAmp r rest hx ha.2 s hs
  | .cons (.Constant lit) rest =>
    simp only [TemplateArgList.ampFree, TemplateArg.ampFree, Bool.and_eq_true] at ha
    intro s hs
    simp only [CppRenderer.renderTplArgs, List.mem_cons] at hs
    rcases hs with hs | hs
    · subst hs; exact ha.1
    · exact renderTplArgs_noAmp r rest hx ha.2 s hs
  | .cons .Unknown rest =>
    simp only [TemplateArgList.ampFree, TemplateArg.ampFree, Bool.and_eq_true] at ha
    intro s hs
    simp only [CppRenderer.renderTplArgs] at hs
    exact renderTplArgs_noAmp r rest hx ha.2 s hs

end

theorem char_mem_append_mid (a m b : String) (ch : Char) (h : ch ∈ m.data) :
    ch ∈ (a ++ m ++ b).data := by
  simp [String.data_append, List.mem_append]
  tauto

theorem strNoAmp_iff {s : String} : strNoAmp s = true ↔ '&' ∉ s.data := by
  rw [strNoAmp, List.all_eq_true]
  constructor
  · intro h hmem
    have := h _ hmem
    simp at this
  · intro h c hc
    simp only [bne_iff_ne, ne_eq]
    rintro rfl
    exact h hc

/-- C2: extern collapse of references. Rendering `Reference(X)` in
general mode yields a string containing `&`; rendering the identical
TypeRef in extern mode yields a string containing `*`, and (for inputs
whose embedded spellings and declarator name are free of `&`) no `&`;
the end-to-end example `Reference(Primitive("double"))` with name `v`
and `extern_types = true` renders exactly as `"double* v"`. -/
theorem c2_extern_collapse :
    (∀ (r : CppRenderer) (inner : TypeRef) (c : Constness) (b1 b2 b3 b4 : Bool),
      (r.extern_types = false →
        '&' ∈ (CppRenderer.render r (.mk (.Reference inner) c b1 b2 b3 b4)).data) ∧
      (r.extern_types = true →
        '*' ∈ (CppRenderer.render r (.mk (.Reference inner) c b1 b2 b3 b4)).data) ∧
      (r.extern_types = true → strNoAmp r.name = true →
        (TypeRef.mk (.Reference inner) c b1 b2 b3 b4).ampFree = true →
        '&' ∉ (CppRenderer.render r (.mk (.Reference inner) c b1 b2 b3 b4)).data)) ∧
    CppRenderer.render ⟨.Reference, "v", true⟩
        (.mk (.Reference doublePrim) .Mut false false false false) = "double* v" := by
  refine ⟨fun r inner c b1 b2 b3 b4 => ?_, by decide⟩
  obtain ⟨style, name, ext⟩ := r
  refine ⟨?_, ?_, ?_⟩
  · intro hx
    have hx' : ext = false := hx
    subst hx'
    have hre : CppRenderer.render ⟨style, name, false⟩ (.mk (.Reference inner) c b1 b2 b3 b4) =
        CppRenderer.render ⟨style, "", false⟩ inner ++ "&" ++
          (if name = "" then "" else " " ++ c.cpp_qual ++ name) := by
      simp [CppRenderer.render, CppRenderer.recurse]
    rw [hre]
    exact char_mem_append_mid _ "&" _ '&' (by decide)
  · intro hx
    have hx' : ext = true := hx
    subst hx'
    have hre : CppRenderer.render ⟨style, name, true⟩ (.mk (.Reference inner) c b1 b2 b3 b4) =
        CppRenderer.render ⟨style, "", true⟩ inner ++ "*" ++
          (if name = "" then "" else " " ++ c.cpp_qual ++ name) := by
      simp [CppRenderer.render, CppRenderer.recurse]
    rw [hre]
    exact char_mem_append_mid _ "*" _ '*' (by decide)
  · intro hx hname hfree
    have hx' : ext = true := hx
    subst hx'
    exact strNoAmp_iff.mp
      (render_noAmp ⟨style, name, true⟩ (.mk (.Reference inner) c b1 b2 b3 b4) rfl hname hfree)

/-- C2 witness: the quantified part applied to a concrete reference to
`int` under a non-empty declarator name, in both general and extern
mode. -/
theorem c2_extern_collapse_witness :
    '&' ∈ (CppRenderer.render ⟨.Reference, "n", false⟩
        (.mk (.Reference intPrim) .Mut false false false false)).data ∧
    '*' ∈ (CppRenderer.render ⟨.Reference, "n", true⟩
        (.mk (.Reference intPrim) .Mut false false false false)).data ∧
    '&' ∉ (CppRenderer.render ⟨.Reference, "n", true⟩
        (.mk (.Reference intPrim) .Mut false false false false)).data := by
  have h1 := (c2_extern_collapse.1 ⟨.Reference, "n", false⟩ intPrim .Mut false false false false).1
    rfl
  have h2 := (c2_extern_collapse.1 ⟨.Reference, "n", true⟩ intPrim .Mut false false false false).2.1
    rfl
  have h3 := (c2_extern_collapse.1 ⟨.Reference, "n", true⟩ intPrim .Mut false false false false).2.2
    rfl (by decide) (by decide)
  exact ⟨h1, h2, h3⟩

/-- C10 witness: the function spelling `void (*)(int)` with an empty name
is returned unchanged, and with name `cb` the first `(*)` is replaced by
`(*cb)`. -/
theorem c10_function_marker_witness :
    CppRenderer.render ⟨.Reference, "", true⟩
        (.mk (.Function ⟨"void (*)(int)", "void (*)(int)"⟩) .Mut false false false false) =
      "void (*)(int)" ∧
    (∃ pre post,
      ("void (*)(int)" : String).data = pre ++ "(*)".data ++ post ∧
      (∀ pre' post', ("void (*)(int)" : String).data = pre' ++ "(*)".data ++ post' →
        pre.length ≤ pre'.length) ∧
      (CppRenderer.render ⟨.Reference, "cb", true⟩
          (.mk (.Function ⟨"void (*)(int)", "void (*)(int)"⟩) .Mut
            false false false false)).data =
        pre ++ ("(*" ++ "cb" ++ ")").data ++ post) := by
  have h := c10_function_marker .Reference "cb" true ⟨"void (*)(int)", "void (*)(int)"⟩ .Mut
    false false false false (by decide)
  exact ⟨h.1, h.2 (by decide)⟩
